import Mathlib

/-!
Verification of the dirgit repository-scanning tool.

set_option maxHeartbeats 1000000

The development shallowly embeds the Rust sources:
  * `src/issues.rs` — the repository classifier (`find_issues_with`), the
    byte substring matcher (`is_sub`), and the top-level `find_issues`.
  * `src/args.rs` — the `Args` configuration record.
Raw command output (`Vec<u8>`) is modelled as `List Nat` (byte values);
Rust `String` text is modelled as `List Char`.  A command invocation that
cannot be spawned is modelled as `none`; the `.expect(..)` panics of the
Rust code are modelled by the classifier returning `none` (the whole run
aborts).
-/

/-- The options for the `--color` flag (from `src/args.rs`). -/
inductive ColorOptions where
  | Auto : ColorOptions
  | Always : ColorOptions
  | Never : ColorOptions
deriving DecidableEq, Repr

/-- Command-line arguments (from `src/args.rs`).  `recurse_limit` is a `u32`,
modelled as `Nat`. -/
structure Args where
  no_fetch : Bool
  verbose : Bool
  recurse_limit : Nat
  color : ColorOptions
  path : String
deriving DecidableEq, Repr

/-- The output of one spawned subprocess, mirroring Rust's
`std::process::Output`: an exit status (never inspected by dirgit) and the
two raw byte streams. -/
structure Output where
  status : Int
  stdout : List Nat
  stderr : List Nat
deriving DecidableEq, Repr

/-- The results of the four git invocations the classifier may perform for
one repository path.  `none` models the spawn itself failing (which the Rust
code turns into a panic via `.expect`); `some o` models a completed process,
whatever its exit status. -/
structure GitEnv where
  fetch : Option Output
  status : Option Output
  remote : Option Output
  branch_vv : Option Output
deriving DecidableEq, Repr

/-- The accumulator of scan results (struct `Issues` in `src/issues.rs`).
`dir_searched` is an `i32` in Rust, modelled as `Int` (the scan never
approaches overflow). -/
structure Issues where
  dir_searched : Int
  no_git_repo : List String
  no_remote : List String
  current_branch_untracked : List String
  not_committed : List String
  not_pushed : List String
  have_diverged : List String
deriving DecidableEq, Repr

instance : Inhabited Issues := ⟨0, [], [], [], [], [], []⟩

/-- UTF-8 encoding of a single scalar value, byte by byte. -/
def utf8EncodeChar (c : Char) : List Nat :=
  let n := c.toNat
  if n < 0x80 then [n]
  else if n < 0x800 then [0xC0 + n / 64, 0x80 + n % 64]
  else if n < 0x10000 then [0xE0 + n / 4096, 0x80 + n / 64 % 64, 0x80 + n % 64]
  else [0xF0 + n / 0x40000, 0x80 + n / 4096 % 64, 0x80 + n / 64 % 64, 0x80 + n % 64]

/-- UTF-8 encoding of a text, used to model Rust's `str::as_bytes` on the
strings the classifier builds. -/
def utf8Encode (s : List Char) : List Nat :=
  (s.map utf8EncodeChar).flatten

/-- The UTF-8 bytes of a string literal; models Rust byte-string literals
such as `b"origin"`. -/
def bytes (s : String) : List Nat :=
  utf8Encode s.data

/-- A valid UTF-8 continuation byte contributes its low six bits. -/
def utf8Cont (b : Nat) : Option Nat :=
  if 0x80 ≤ b ∧ b < 0xC0 then some (b % 64) else none

/-- Validating UTF-8 decoder, modelling Rust's `String::from_utf8`:
rejects stray continuation bytes, overlong forms, surrogate scalar values
and anything above U+10FFFF.  `none` models the `Err` case. -/
def utf8Decode : List Nat → Option (List Char)
  | [] => some []
  | b :: bs =>
    if b < 0x80 then
      (utf8Decode bs).map (fun cs => Char.ofNat b :: cs)
    else if b < 0xC2 then none
    else if b < 0xE0 then
      match bs with
      | b1 :: bs' =>
        match utf8Cont b1 with
        | some x => (utf8Decode bs').map (fun cs => Char.ofNat ((b - 0xC0) * 64 + x) :: cs)
        | none => none
      | [] => none
    else if b < 0xF0 then
      match bs with
      | b1 :: b2 :: bs' =>
        match utf8Cont b1, utf8Cont b2 with
        | some x1, some x2 =>
          let n := (b - 0xE0) * 4096 + x1 * 64 + x2
          if n < 0x800 ∨ (0xD800 ≤ n ∧ n < 0xE000) then none
          else (utf8Decode bs').map (fun cs => Char.ofNat n :: cs)
        | _, _ => none
      | _ => none
    else if b < 0xF5 then
      match bs with
      | b1 :: b2 :: b3 :: bs' =>
        match utf8Cont b1, utf8Cont b2, utf8Cont b3 with
        | some x1, some x2, some x3 =>
          let n := (b - 0xF0) * 0x40000 + x1 * 4096 + x2 * 64 + x3
          if n < 0x10000 ∨ 0x10FFFF < n then none
          else (utf8Decode bs').map (fun cs => Char.ofNat n :: cs)
        | _, _, _ => none
      | _ => none
    else none

/-- The sliding windows of length `n` over a list, mirroring Rust's
`slice::windows(n)` for `n > 0` (dirgit only ever uses non-empty needles;
Rust panics on `n = 0`, where this total model instead yields
`length + 1` empty windows). -/
def windows {α : Type} (n : Nat) : List α → List (List α)
  | [] => if n = 0 then [[]] else []
  | x :: xs => if xs.length + 1 < n then [] else (x :: xs).take n :: windows n xs

/-- `fn is_sub<T: PartialEq>(haystack: &[T], needle: &[T]) -> bool` from
`src/issues.rs`:
`haystack.windows(needle.len()).any(|c| c == needle)`. -/
def is_sub {α : Type} [DecidableEq α] (haystack needle : List α) : Bool :=
  (windows needle.length haystack).any (fun c => c == needle)

/-- One step of `str::lines`: strip a single trailing carriage return from a
line that was terminated by a line feed. -/
def stripCr (l : List Char) : List Char :=
  if l.getLast? = some '\r' then l.dropLast else l

/-- Worker for `rustLines`; `acc` holds the current line reversed. -/
def rustLinesGo (acc : List Char) : List Char → List (List Char)
  | [] => if acc = [] then [] else [acc.reverse]
  | c :: cs =>
    if c = '\n' then stripCr acc.reverse :: rustLinesGo [] cs
    else rustLinesGo (c :: acc) cs

/-- Rust's `str::lines`: split at `\n` or `\r\n`, terminators dropped, and a
final line terminator produces no extra empty line. -/
def rustLines (s : List Char) : List (List Char) :=
  rustLinesGo [] s

/-- Worker for `rustSplitSpace`; `acc` holds the current piece reversed. -/
def rustSplitSpaceGo (acc : List Char) : List Char → List (List Char)
  | [] => [acc.reverse]
  | c :: cs =>
    if c = ' ' then acc.reverse :: rustSplitSpaceGo [] cs
    else rustSplitSpaceGo (c :: acc) cs

/-- Rust's `str::split(" ")`: split at every single space, keeping empty
pieces (so the result is never the empty list). -/
def rustSplitSpace (l : List Char) : List (List Char) :=
  rustSplitSpaceGo [] l

/-- The closure passed to `filter_map` in `find_issues_with`'s current-branch
search: if the line's first `" "`-separated token is `*`, yield its second
token (if any). -/
def starSecondToken (l : List Char) : Option (List Char) :=
  match rustSplitSpace l with
  | w :: ws => if w = ['*'] then ws.head? else none
  | [] => none

/-- `fn find_issues_with(path: String, issues: &mut Issues, args: Args)`
from `src/issues.rs`, with the four subprocess results supplied through
`env`.  Returns `none` when the Rust code would panic via `.expect`
(a git command that cannot be spawned, `git branch -vv` output that is not
valid UTF-8, or no current-branch line). -/
def find_issues_with (path : String) (issues : Issues) (args : Args) (env : GitEnv) :
    Option Issues :=
  let issues := { issues with dir_searched := issues.dir_searched + 1 }
  match (if args.no_fetch then some () else env.fetch.map (fun _ => ())) with
  | none => none
  | some _ =>
    match env.status, env.remote, env.branch_vv with
    | some git_status, some git_remote, some git_branch_vv =>
      if (bytes "fatal: not a git repository").isPrefixOf git_status.stderr then
        some { issues with no_git_repo := issues.no_git_repo ++ [path] }
      else if !is_sub git_remote.stdout (bytes "origin") then
        some { issues with no_remote := issues.no_remote ++ [path] }
      else
        match utf8Decode git_branch_vv.stdout with
        | none => none
        | some git_branch_vv_out =>
          match ((rustLines git_branch_vv_out).filterMap starSecondToken).head? with
          | none => none
          | some current_branch =>
            if !is_sub git_branch_vv.stdout
                (utf8Encode ("[origin/".data ++ current_branch)) then
              some { issues with
                current_branch_untracked := issues.current_branch_untracked ++ [path] }
            else if is_sub git_status.stdout (bytes "Changes to be committed:")
                || is_sub git_status.stdout (bytes "Changes not staged for commit:")
                || is_sub git_status.stdout (bytes "Untracked files:") then
              some { issues with not_committed := issues.not_committed ++ [path] }
            else if is_sub git_status.stdout (bytes "Your branch is ahead of") then
              some { issues with not_pushed := issues.not_pushed ++ [path] }
            else if is_sub git_status.stdout (bytes "have diverged") then
              some { issues with have_diverged := issues.have_diverged ++ [path] }
            else
              some issues
    | _, _, _ => none

/-- The six issue categories, in the precedence order of the decision
tree. -/
inductive Issue where
  | no_git_repo : Issue
  | no_remote : Issue
  | current_branch_untracked : Issue
  | not_committed : Issue
  | not_pushed : Issue
  | have_diverged : Issue
deriving DecidableEq, Repr

/-- The sequence of an `Issues` accumulator that belongs to a category. -/
def bucketGet (i : Issues) : Issue → List String
  | .no_git_repo => i.no_git_repo
  | .no_remote => i.no_remote
  | .current_branch_untracked => i.current_branch_untracked
  | .not_committed => i.not_committed
  | .not_pushed => i.not_pushed
  | .have_diverged => i.have_diverged

/-- Append a path to the sequence of one category (or to none). -/
def applyOutcome (path : String) (i : Issues) : Option Issue → Issues
  | none => i
  | some .no_git_repo => { i with no_git_repo := i.no_git_repo ++ [path] }
  | some .no_remote => { i with no_remote := i.no_remote ++ [path] }
  | some .current_branch_untracked =>
      { i with current_branch_untracked := i.current_branch_untracked ++ [path] }
  | some .not_committed => { i with not_committed := i.not_committed ++ [path] }
  | some .not_pushed => { i with not_pushed := i.not_pushed ++ [path] }
  | some .have_diverged => { i with have_diverged := i.have_diverged ++ [path] }

/-- The pure classification underlying `find_issues_with`, as a function of
the three interpreted command outputs.  `none` models a panic of the Rust
code; `some none` a healthy repository; `some (some b)` category `b`. -/
def classifyOutcome (git_status git_remote git_branch_vv : Output) :
    Option (Option Issue) :=
  if (bytes "fatal: not a git repository").isPrefixOf git_status.stderr then
    some (some .no_git_repo)
  else if !is_sub git_remote.stdout (bytes "origin") then
    some (some .no_remote)
  else
    match utf8Decode git_branch_vv.stdout with
    | none => none
    | some git_branch_vv_out =>
      match ((rustLines git_branch_vv_out).filterMap starSecondToken).head? with
      | none => none
      | some current_branch =>
        if !is_sub git_branch_vv.stdout
            (utf8Encode ("[origin/".data ++ current_branch)) then
          some (some .current_branch_untracked)
        else if is_sub git_status.stdout (bytes "Changes to be committed:")
            || is_sub git_status.stdout (bytes "Changes not staged for commit:")
            || is_sub git_status.stdout (bytes "Untracked files:") then
          some (some .not_committed)
        else if is_sub git_status.stdout (bytes "Your branch is ahead of") then
          some (some .not_pushed)
        else if is_sub git_status.stdout (bytes "have diverged") then
          some (some .have_diverged)
        else
          some none

/-- Which category's sequence grew between two accumulator snapshots
(checked in precedence order); `none` if all six are unchanged. -/
def issueAdded (old new : Issues) : Option Issue :=
  if new.no_git_repo ≠ old.no_git_repo then some .no_git_repo
  else if new.no_remote ≠ old.no_remote then some .no_remote
  else if new.current_branch_untracked ≠ old.current_branch_untracked then
    some .current_branch_untracked
  else if new.not_committed ≠ old.not_committed then some .not_committed
  else if new.not_pushed ≠ old.not_pushed then some .not_pushed
  else if new.have_diverged ≠ old.have_diverged then some .have_diverged
  else none

/-- One directory entry as seen by `find_issues` in `src/issues.rs`:
`metadata` models `DirEntry::metadata().map(|m| m.is_dir())` (`none` for an
I/O error, otherwise whether the entry is a directory), and `path` models
`DirEntry::path().to_str()` (`none` when the path is not valid UTF-8). -/
structure DirEntry where
  metadata : Option Bool
  path : Option String
deriving DecidableEq, Repr

/-- The entry filter of `find_issues`: drop unreadable entries
(`filter_map(|p| p.ok())`) and keep directories
(`filter(|p| p.metadata().map(|m| m.is_dir()).unwrap_or(false))`).
The outer `Option` of each element models the `io::Result<DirEntry>`
yielded by `read_dir`. -/
def keptDirs (entries : List (Option DirEntry)) : List DirEntry :=
  (entries.filterMap id).filter (fun e => e.metadata.getD false)

/-- The classification loop of `find_issues`: classify each kept entry in
turn, passing `""` for a path that is not valid UTF-8
(`path().to_str().unwrap_or("")`). -/
def classify_all (args : Args) (env : String → GitEnv) (issues : Issues)
    (dirs : List DirEntry) : Option Issues :=
  dirs.foldlM
    (fun i e => find_issues_with (e.path.getD "") i args (env (e.path.getD "")))
    issues

/-- `fn find_issues(args: Args) -> Issues` from `src/issues.rs`.
`dotGit` models `Path::exists("./.git")`; `read_dir` models
`fs::read_dir("./")` (`none` when it fails, which the Rust code turns into
a panic via `.expect`); `env` supplies the git command results per
repository path.  `none` models an aborted run. -/
def find_issues (args : Args) (dotGit : Bool)
    (read_dir : Option (List (Option DirEntry))) (env : String → GitEnv) :
    Option Issues :=
  if dotGit then
    find_issues_with "./" default args (env "./")
  else
    match read_dir with
    | none => none
    | some entries => classify_all args env default (keptDirs entries)

/-- Modelled from the spec: one entry of a directory listing seen by the
recursive Traversal Engine of §4.1 (the 4-argument `find_issues` that
`main.rs` calls is not present in the sources).  An entry is a readable
subdirectory with its name and contents, a non-directory entry (skipped),
or an entry that cannot be read (skipped with a diagnostic). -/
inductive Entry where
  | subdir (path : String) (hasGit : Bool) (entries : List Entry) : Entry
  | file : Entry
  | unreadable : Entry

/-- Modelled from the spec: the diagnostic printed for a directory entry
that cannot be read (§4.1 / §7; the spec fixes no wording). -/
def unreadableDiag : String :=
  "could not read directory entry"

mutual

/-- Modelled from the spec: the Traversal Engine contract
`scan(root, depth_limit, report, fetch)` of §4.1, absent from the sources
(`main.rs` calls `find_issues(&args, &mut issues, path, recurse_limit)`).
With `depth_limit = 0` it performs no work; a root carrying a `.git`
marker is handed to the Classifier and not recursed into; otherwise each
immediate subdirectory is scanned with `depth_limit - 1`.  The second
component of the result collects the diagnostics printed for unreadable
entries; `none` models an aborted run. -/
def scan (args : Args) (env : String → GitEnv) (path : String) (hasGit : Bool)
    (entries : List Entry) (limit : Nat) (issues : Issues) :
    Option (Issues × List String) :=
  match limit with
  | 0 => some (issues, [])
  | Nat.succ limit' =>
    if hasGit then
      (find_issues_with path issues args (env path)).map (fun i => (i, []))
    else
      scanList args env entries limit' issues
termination_by sizeOf entries + 1

/-- Modelled from the spec: scanning the listed entries of a non-repository
directory, each subdirectory with the already decremented depth budget
`limit`; non-directory entries are skipped, unreadable ones are skipped
with a diagnostic and traversal of the siblings continues (§4.1). -/
def scanList (args : Args) (env : String → GitEnv) (entries : List Entry)
    (limit : Nat) (issues : Issues) : Option (Issues × List String) :=
  match entries with
  | [] => some (issues, [])
  | .file :: es => scanList args env es limit issues
  | .unreadable :: es =>
    (scanList args env es limit issues).map (fun p => (p.1, unreadableDiag :: p.2))
  | .subdir p g ces :: es =>
    match scan args env p g ces limit issues with
    | none => none
    | some (i, log₁) =>
      match scanList args env es limit i with
      | none => none
      | some (i₂, log₂) => some (i₂, log₁ ++ log₂)
termination_by sizeOf entries

end

/-- The part of a directory entry that a scan with the given remaining
depth budget can observe: at budget `0` nothing of a subdirectory is read;
at budget `l + 1` its marker is read and its children are observable with
budget `l`.  Used to state that the traversal is bounded by the depth
limit. -/
def truncEntry : Nat → Entry → Entry
  | _, .file => .file
  | _, .unreadable => .unreadable
  | 0, .subdir p _ _ => .subdir p false []
  | l + 1, .subdir p g ces => .subdir p g (ces.map (truncEntry l))

/-- The part of a scan root that a scan with depth budget `l` can observe. -/
def truncRoot (l : Nat) (g : Bool) (es : List Entry) : Bool × List Entry :=
  match l with
  | 0 => (false, [])
  | l' + 1 => (g, es.map (truncEntry l'))

mutual

/-- The number of `.git`-marked directories a scan with the given depth
budget encounters — exactly the directories handed to the Classifier. -/
def gitRepos (l : Nat) (g : Bool) (es : List Entry) : Nat :=
  match l with
  | 0 => 0
  | Nat.succ l' => if g then 1 else gitReposList es l'
termination_by sizeOf es + 1

/-- The number of `.git`-marked directories encountered among the listed
entries of a non-repository directory, each subdirectory inspected with the
already decremented depth budget `l`. -/
def gitReposList (es : List Entry) (l : Nat) : Nat :=
  match es with
  | [] => 0
  | .subdir _ g c :: t => gitRepos l g c + gitReposList t l
  | .file :: t => gitReposList t l
  | .unreadable :: t => gitReposList t l
termination_by sizeOf es

end

/-- Tokens of a line split at whitespace with empty pieces dropped — the
"whitespace-separated token" reading of the specification's §4.2 step 3
(Rust `str::split_whitespace`), stated for comparison with the source's
`split(" ")`. -/
def wsTokens (l : List Char) : List (List Char) :=
  (l.splitOnP (fun c => c.isWhitespace)).filter (fun t => t ≠ [])

/-- A completed subprocess with empty output streams. -/
def outEmpty : Output := { status := 0, stdout := [], stderr := [] }

/-- Arguments with `--no-fetch` set. -/
def argsNF : Args :=
  { no_fetch := true, verbose := false, recurse_limit := 3,
    color := ColorOptions.Auto, path := "." }

/-- Arguments with fetching enabled. -/
def argsWF : Args := { argsNF with no_fetch := false }

/-- `git status` result of a directory that is not a git repository. -/
def statusFatal : Output :=
  { status := 128, stdout := [],
    stderr := bytes "fatal: not a git repository (or any of the parent directories): .git" }

/-- Subprocess results for a directory that is not a git repository. -/
def envFatal : GitEnv :=
  { fetch := some outEmpty, status := some statusFatal,
    remote := some outEmpty, branch_vv := some outEmpty }

/-- `git remote` result listing `origin`. -/
def outOrigin : Output := { status := 0, stdout := bytes "origin\n", stderr := [] }

/-- `git status` result of a clean working tree. -/
def statusClean : Output :=
  { status := 0,
    stdout := bytes "On branch main\nnothing to commit, working tree clean\n",
    stderr := [] }

/-- `git branch -vv` result whose current branch `main` tracks
`origin/feature` only. -/
def branchFeature : Output :=
  { status := 0, stdout := bytes "* main 1234abc [origin/feature] msg\n",
    stderr := [] }

/-- Subprocess results of a repository whose current branch is untracked. -/
def envUntracked : GitEnv :=
  { fetch := some outEmpty, status := some statusClean,
    remote := some outOrigin, branch_vv := some branchFeature }

/-- `git branch -vv` result whose current-branch line separates the `*`
marker from the branch name by a tab instead of a space. -/
def branchTab : Output :=
  { status := 0, stdout := bytes "*\tfoo\n", stderr := [] }

/-- `git branch -vv` result whose only line is a lone `*` marker. -/
def branchLoneStar : Output :=
  { status := 0, stdout := bytes "*\n", stderr := [] }

/-- Subprocess results with the tab-separated current-branch line. -/
def envTab : GitEnv :=
  { fetch := some outEmpty, status := some outEmpty,
    remote := some outOrigin, branch_vv := some branchTab }

/-- Subprocess results with the lone-`*` current-branch line. -/
def envLoneStar : GitEnv := { envTab with branch_vv := some branchLoneStar }

/-- A per-path environment where every git command completes with empty
output. -/
def envTrivial : String → GitEnv := fun _ =>
  { fetch := some outEmpty, status := some outEmpty,
    remote := some outEmpty, branch_vv := some outEmpty }

/-- A readable directory entry whose path is not valid UTF-8. -/
def entryNoUtf8 : DirEntry := { metadata := some true, path := none }

theorem fetch_step_some (args : Args) (env : GitEnv)
    (hf : args.no_fetch = true ∨ env.fetch.isSome) :
    (if args.no_fetch then some () else env.fetch.map (fun _ => ())) = some () := by
  rcases hf with h | h
  · simp [h]
  · rcases Option.isSome_iff_exists.mp h with ⟨o, ho⟩
    cases args.no_fetch <;> simp [ho]

theorem find_issues_with_eq (path : String) (issues : Issues) (args : Args)
    (env : GitEnv) (st rm bv : Output)
    (hf : args.no_fetch = true ∨ env.fetch.isSome)
    (hs : env.status = some st) (hr : env.remote = some rm)
    (hb : env.branch_vv = some bv) :
    find_issues_with path issues args env =
      (classifyOutcome st rm bv).map
        (applyOutcome path { issues with dir_searched := issues.dir_searched + 1 }) := by
  have hfetch := fetch_step_some args env hf
  simp only [find_issues_with, hfetch, hs, hr, hb, classifyOutcome]
  split
  · simp [applyOutcome]
  · split
    · simp [applyOutcome]
    · split
      · rfl
      · split
        · rfl
        · split
          · simp [applyOutcome]
          · split
            · simp [applyOutcome]
            · split
              · simp [applyOutcome]
              · split
                · simp [applyOutcome]
                · simp [applyOutcome]

theorem find_issues_with_inv (path : String) (issues : Issues) (args : Args)
    (env : GitEnv) (r : Issues)
    (h : find_issues_with path issues args env = some r) :
    ∃ st rm bv o, env.status = some st ∧ env.remote = some rm ∧
      env.branch_vv = some bv ∧ (args.no_fetch = true ∨ env.fetch.isSome) ∧
      classifyOutcome st rm bv = some o ∧
      r = applyOutcome path { issues with dir_searched := issues.dir_searched + 1 } o := by
  have hf : args.no_fetch = true ∨ env.fetch.isSome := by
    by_contra hcon
    push_neg at hcon
    have h1 : args.no_fetch = false := by
      cases hnf : args.no_fetch
      · rfl
      · exact absurd hnf hcon.1
    have h2 : env.fetch = none := by
      cases hef : env.fetch
      · rfl
      · exact absurd (by simp [hef]) hcon.2
    rw [find_issues_with] at h
    simp [h1, h2] at h
  have hfetch := fetch_step_some args env hf
  cases hs : env.status with
  | none =>
    rw [find_issues_with] at h
    rw [hfetch, hs] at h
    cases env.remote <;> cases env.branch_vv <;> simp at h
  | some st =>
    cases hr : env.remote with
    | none =>
      rw [find_issues_with] at h
      rw [hfetch, hs, hr] at h
      cases env.branch_vv <;> simp at h
    | some rm =>
      cases hb : env.branch_vv with
      | none =>
        rw [find_issues_with] at h
        rw [hfetch, hs, hr, hb] at h
        simp at h
      | some bv =>
        rw [find_issues_with_eq path issues args env st rm bv hf hs hr hb] at h
        rcases Option.map_eq_some'.mp h with ⟨o, ho, hro⟩
        exact ⟨st, rm, bv, o, rfl, rfl, rfl, hf, ho, hro.symm⟩

theorem append_singleton_ne {α : Type} (l : List α) (p : α) : l ++ [p] ≠ l := by
  intro h
  have := congrArg List.length h
  simp at this

theorem applyOutcome_dir_searched (path : String) (i : Issues) (o : Option Issue) :
    (applyOutcome path i o).dir_searched = i.dir_searched := by
  rcases o with _ | b
  · rfl
  · cases b <;> rfl

theorem issueAdded_applyOutcome (path : String) (i : Issues) (n : Int)
    (o : Option Issue) :
    issueAdded i (applyOutcome path { i with dir_searched := n } o) = o := by
  rcases o with _ | b
  · simp [applyOutcome, issueAdded]
  · cases b <;> simp [applyOutcome, issueAdded, append_singleton_ne]

theorem bucketGet_applyOutcome (path : String) (i : Issues) (n : Int) (b : Issue) :
    bucketGet (applyOutcome path { i with dir_searched := n } (some b)) b =
      bucketGet i b ++ [path] := by
  cases b <;> simp [applyOutcome, bucketGet]

theorem find_issues_with_dir_searched (path : String) (issues : Issues)
    (args : Args) (env : GitEnv) (r : Issues)
    (h : find_issues_with path issues args env = some r) :
    r.dir_searched = issues.dir_searched + 1 := by
  rcases find_issues_with_inv path issues args env r h with
    ⟨st, rm, bv, o, _, _, _, _, _, hro⟩
  rw [hro, applyOutcome_dir_searched]

theorem is_sub_iff_contiguous {α : Type} [DecidableEq α] (haystack needle : List α) :
    is_sub haystack needle = true ↔ needle <:+: haystack := by
  induction haystack with
  | nil =>
    by_cases hn : needle.length = 0
    · rw [List.length_eq_zero] at hn
      subst hn
      simp [is_sub, windows]
    · constructor
      · intro h
        rw [is_sub, windows] at h
        simp [hn] at h
      · intro h
        have := h.length_le
        simp at this
        exact absurd (List.length_eq_zero.mpr this) hn
  | cons x xs ih =>
    rw [is_sub, windows]
    by_cases hlen : xs.length + 1 < needle.length
    · simp only [if_pos hlen]
      constructor
      · intro h
        simp at h
      · intro h
        have := h.length_le
        simp at this
        omega
    · simp only [if_neg hlen]
      rw [List.infix_cons_iff]
      simp only [List.any_cons, Bool.or_eq_true, beq_iff_eq]
      constructor
      · rintro (h | h)
        · left
          rw [List.prefix_iff_eq_take]
          exact h.symm
        · right
          exact (ih.mp h)
      · rintro (h | h)
        · left
          exact (List.prefix_iff_eq_take.mp h).symm
        · right
          exact ih.mpr h

theorem scan_zero (args : Args) (env : String → GitEnv) (path : String)
    (g : Bool) (es : List Entry) (issues : Issues) :
    scan args env path g es 0 issues = some (issues, []) := by
  rw [scan]

theorem scan_succ_git (args : Args) (env : String → GitEnv) (path : String)
    (es : List Entry) (l : Nat) (issues : Issues) :
    scan args env path true es (l + 1) issues =
      (find_issues_with path issues args (env path)).map (fun i => (i, [])) := by
  rw [scan]
  rfl

theorem scan_succ_nogit (args : Args) (env : String → GitEnv) (path : String)
    (es : List Entry) (l : Nat) (issues : Issues) :
    scan args env path false es (l + 1) issues = scanList args env es l issues := by
  rw [scan]
  rfl

theorem scanList_nil (args : Args) (env : String → GitEnv) (l : Nat)
    (issues : Issues) : scanList args env [] l issues = some (issues, []) := by
  rw [scanList]

theorem scanList_file (args : Args) (env : String → GitEnv) (es : List Entry)
    (l : Nat) (issues : Issues) :
    scanList args env (.file :: es) l issues = scanList args env es l issues := by
  rw [scanList]

theorem scanList_unreadable (args : Args) (env : String → GitEnv)
    (es : List Entry) (l : Nat) (issues : Issues) :
    scanList args env (.unreadable :: es) l issues =
      (scanList args env es l issues).map (fun p => (p.1, unreadableDiag :: p.2)) := by
  rw [scanList]

theorem scanList_subdir (args : Args) (env : String → GitEnv) (p : String)
    (g : Bool) (ces es : List Entry) (l : Nat) (issues : Issues) :
    scanList args env (.subdir p g ces :: es) l issues =
      match scan args env p g ces l issues with
      | none => none
      | some (i, log₁) =>
        match scanList args env es l i with
        | none => none
        | some (i₂, log₂) => some (i₂, log₁ ++ log₂) := by
  rw [scanList]

theorem truncEntry_subdir (l : Nat) (p : String) (g : Bool) (ces : List Entry) :
    truncEntry l (.subdir p g ces) =
      .subdir p (truncRoot l g ces).1 (truncRoot l g ces).2 := by
  cases l <;> simp [truncEntry, truncRoot]

theorem scan_trunc (l : Nat) : ∀ (args : Args) (env : String → GitEnv)
    (path : String) (issues : Issues) (g : Bool) (es : List Entry)
    (g' : Bool) (es' : List Entry),
    truncRoot l g es = truncRoot l g' es' →
    scan args env path g es l issues = scan args env path g' es' l issues := by
  induction l with
  | zero =>
    intro args env path issues g es g' es' _
    rw [scan_zero, scan_zero]
  | succ l ih =>
    intro args env path issues g es g' es' h
    simp only [truncRoot, Prod.mk.injEq] at h
    obtain ⟨hg, hes⟩ := h
    subst hg
    cases g with
    | true => rw [scan_succ_git, scan_succ_git]
    | false =>
      rw [scan_succ_nogit, scan_succ_nogit]
      have aux : ∀ (es es' : List Entry),
          es.map (truncEntry l) = es'.map (truncEntry l) →
          ∀ issues, scanList args env es l issues = scanList args env es' l issues := by
        intro es
        induction es with
        | nil =>
          intro es' h issues
          cases es' with
          | nil => rfl
          | cons e' t' => simp at h
        | cons e t iht =>
          intro es' h issues
          cases es' with
          | nil => simp at h
          | cons e' t' =>
            simp only [List.map_cons, List.cons.injEq] at h
            obtain ⟨hh, ht⟩ := h
            cases e <;> cases e' <;>
              simp only [truncEntry_subdir, truncEntry] at hh
            all_goals try exact Entry.noConfusion hh
            case subdir.subdir p g1 c p' g2 c' =>
              injection hh with hp h1 h2
              subst hp
              have hsc : scan args env p g1 c l issues = scan args env p g2 c' l issues :=
                ih args env p issues g1 c g2 c' (Prod.ext h1 h2)
              rw [scanList_subdir, scanList_subdir, hsc]
              cases hres : scan args env p g2 c' l issues with
              | none => rfl
              | some pr =>
                obtain ⟨i, lg⟩ := pr
                simp only
                rw [iht t' ht i]
            case file.file =>
              rw [scanList_file, scanList_file]
              exact iht t' ht issues
            case unreadable.unreadable =>
              rw [scanList_unreadable, scanList_unreadable, iht t' ht issues]
      exact aux es es' hes issues

theorem gitRepos_zero (g : Bool) (es : List Entry) : gitRepos 0 g es = 0 := by
  rw [gitRepos]

theorem gitRepos_succ (l : Nat) (g : Bool) (es : List Entry) :
    gitRepos (l + 1) g es = if g then 1 else gitReposList es l := by
  rw [gitRepos]

theorem gitReposList_nil (l : Nat) : gitReposList [] l = 0 := by
  rw [gitReposList]

theorem gitReposList_subdir (p : String) (g : Bool) (c t : List Entry) (l : Nat) :
    gitReposList (.subdir p g c :: t) l = gitRepos l g c + gitReposList t l := by
  rw [gitReposList]

theorem gitReposList_file (t : List Entry) (l : Nat) :
    gitReposList (.file :: t) l = gitReposList t l := by
  rw [gitReposList]

theorem gitReposList_unreadable (t : List Entry) (l : Nat) :
    gitReposList (.unreadable :: t) l = gitReposList t l := by
  rw [gitReposList]

theorem scan_dir_searched (l : Nat) : ∀ (args : Args) (env : String → GitEnv)
    (path : String) (g : Bool) (es : List Entry) (issues r : Issues)
    (log : List String),
    scan args env path g es l issues = some (r, log) →
    r.dir_searched = issues.dir_searched + (gitRepos l g es : Int) := by
  induction l with
  | zero =>
    intro args env path g es issues r log h
    rw [scan_zero] at h
    simp only [Option.some.injEq, Prod.mk.injEq] at h
    rw [← h.1, gitRepos_zero]
    simp
  | succ l ih =>
    intro args env path g es issues r log h
    cases g with
    | true =>
      rw [scan_succ_git] at h
      rcases Option.map_eq_some'.mp h with ⟨i, hi, heq⟩
      simp only [Prod.mk.injEq] at heq
      obtain ⟨rfl, rfl⟩ := heq
      rw [find_issues_with_dir_searched path issues args (env path) i hi, gitRepos_succ]
      simp
    | false =>
      rw [scan_succ_nogit] at h
      have aux : ∀ (es : List Entry) (issues r : Issues) (log : List String),
          scanList args env es l issues = some (r, log) →
          r.dir_searched = issues.dir_searched + (gitReposList es l : Int) := by
        intro es
        induction es with
        | nil =>
          intro issues r log h
          rw [scanList_nil] at h
          simp only [Option.some.injEq, Prod.mk.injEq] at h
          rw [← h.1, gitReposList_nil]
          simp
        | cons e t iht =>
          intro issues r log h
          cases e with
          | file =>
            rw [scanList_file] at h
            rw [gitReposList_file]
            exact iht issues r log h
          | unreadable =>
            rw [scanList_unreadable] at h
            rcases Option.map_eq_some'.mp h with ⟨p, hp, heq⟩
            obtain ⟨i, lg⟩ := p
            simp only [Prod.mk.injEq] at heq
            obtain ⟨rfl, rfl⟩ := heq
            rw [gitReposList_unreadable]
            exact iht issues i lg hp
          | subdir p g' c =>
            rw [scanList_subdir] at h
            cases hsc : scan args env p g' c l issues with
            | none => rw [hsc] at h; simp at h
            | some pr =>
              obtain ⟨i, lg1⟩ := pr
              rw [hsc] at h
              simp only at h
              cases hsl : scanList args env t l i with
              | none => rw [hsl] at h; simp at h
              | some qr =>
                obtain ⟨i2, lg2⟩ := qr
                rw [hsl] at h
                simp only [Option.some.injEq, Prod.mk.injEq] at h
                obtain ⟨rfl, rfl⟩ := h
                have h1 := ih args env p g' c issues i lg1 hsc
                have h2 := iht i i2 lg2 hsl
                rw [h2, h1, gitReposList_subdir]
                push_cast
                ring
      have := aux es issues r log h
      rw [this, gitRepos_succ]
      simp

theorem scanList_append (args : Args) (env : String → GitEnv)
    (a b : List Entry) (l : Nat) : ∀ (issues : Issues),
    scanList args env (a ++ b) l issues =
      (scanList args env a l issues).bind
        (fun p => (scanList args env b l p.1).map (fun q => (q.1, p.2 ++ q.2))) := by
  induction a with
  | nil =>
    intro issues
    rw [List.nil_append, scanList_nil, Option.some_bind]
    cases hb : scanList args env b l issues with
    | none => rfl
    | some q => simp
  | cons e t iha =>
    intro issues
    cases e with
    | file =>
      rw [List.cons_append, scanList_file, scanList_file]
      exact iha issues
    | unreadable =>
      rw [List.cons_append, scanList_unreadable, scanList_unreadable, iha issues]
      cases ht : scanList args env t l issues with
      | none => rfl
      | some p =>
        simp only [Option.map_some', Option.some_bind]
        cases hb : scanList args env b l p.1 with
        | none => rfl
        | some q => simp
    | subdir p g c =>
      rw [List.cons_append, scanList_subdir, scanList_subdir]
      cases hsc : scan args env p g c l issues with
      | none => rfl
      | some pr =>
        obtain ⟨i, lg1⟩ := pr
        simp only
        rw [iha i]
        cases ht : scanList args env t l i with
        | none => rfl
        | some q =>
          simp only [Option.some_bind]
          cases hb : scanList args env b l q.1 with
          | none => rfl
          | some r => simp [List.append_assoc]

/-- C9: for every haystack `h` and every non-empty needle `n`, the byte
substring matcher `is_sub h n` returns `true` iff `n` occurs as a
contiguous subsequence (infix) of `h`; in particular it returns `false`
whenever `n` is longer than `h`. -/
theorem c9_is_sub_spec {α : Type} [DecidableEq α] (h n : List α) (_hne : n ≠ []) :
    (is_sub h n = true ↔ n <:+: h) ∧
    (h.length < n.length → is_sub h n = false) := by
  refine ⟨is_sub_iff_contiguous h n, ?_⟩
  intro hlen
  cases hbool : is_sub h n with
  | false => rfl
  | true =>
    exfalso
    have hinf := (is_sub_iff_contiguous h n).mp hbool
    have := hinf.length_le
    omega

/-- Witness for C9 at a concrete haystack and needle. -/
theorem c9_is_sub_spec_witness :
    (([1, 2, 3] : List Nat) ≠ []) ∧
    ((is_sub ([0, 1, 2, 3, 4] : List Nat) [1, 2, 3] = true ↔
        ([1, 2, 3] : List Nat) <:+: [0, 1, 2, 3, 4]) ∧
      (([0, 1, 2, 3, 4] : List Nat).length < ([1, 2, 3] : List Nat).length →
        is_sub ([0, 1, 2, 3, 4] : List Nat) [1, 2, 3] = false)) :=
  ⟨by decide, c9_is_sub_spec [0, 1, 2, 3, 4] [1, 2, 3] (by decide)⟩

/-- C2: each completed invocation of the classifier appends the path to at
most one of the six sequences and leaves the other five unchanged. -/
theorem c2_at_most_one_sequence (path : String) (issues : Issues) (args : Args)
    (env : GitEnv) (r : Issues)
    (h : find_issues_with path issues args env = some r) :
    ∃ o : Option Issue, ∀ b : Issue,
      bucketGet r b =
        if some b = o then bucketGet issues b ++ [path] else bucketGet issues b := by
  rcases find_issues_with_inv path issues args env r h with
    ⟨st, rm, bv, o, _, _, _, _, _, hro⟩
  subst hro
  refine ⟨o, ?_⟩
  intro b
  rcases o with _ | b'
  · cases b <;> simp [applyOutcome, bucketGet]
  · cases b' <;> cases b <;> simp [applyOutcome, bucketGet]

/-- Witness for C2 on a concrete classifier run. -/
theorem c2_at_most_one_sequence_witness :
    ∃ o : Option Issue, ∀ b : Issue,
      bucketGet
        { dir_searched := 1, no_git_repo := ["w"], no_remote := [],
          current_branch_untracked := [], not_committed := [], not_pushed := [],
          have_diverged := [] } b =
        if some b = o then bucketGet default b ++ ["w"] else bucketGet default b :=
  c2_at_most_one_sequence "w" default argsNF envFatal
    { dir_searched := 1, no_git_repo := ["w"], no_remote := [],
      current_branch_untracked := [], not_committed := [], not_pushed := [],
      have_diverged := [] } (by decide)

/-- C7: with `no_fetch` set the fetch result never enters the run at all;
with fetching enabled the fetch result is never interpreted (any two
completed fetches give identical results), and a fetch command that cannot
be invoked at all aborts the run. -/
theorem c7_fetch_independence (path : String) (issues : Issues) (args : Args)
    (env : GitEnv) :
    (args.no_fetch = true → ∀ f₁ f₂ : Option Output,
      find_issues_with path issues args { env with fetch := f₁ } =
        find_issues_with path issues args { env with fetch := f₂ }) ∧
    (args.no_fetch = false → ∀ o₁ o₂ : Output,
      find_issues_with path issues args { env with fetch := some o₁ } =
        find_issues_with path issues args { env with fetch := some o₂ }) ∧
    (args.no_fetch = false → env.fetch = none →
      find_issues_with path issues args env = none) := by
  refine ⟨?_, ?_, ?_⟩
  · intro hnf f₁ f₂
    simp only [find_issues_with, hnf, if_true]
  · intro hnf o₁ o₂
    simp only [find_issues_with, hnf, Bool.false_eq_true, if_false, Option.map_some']
  · intro hnf hfe
    simp only [find_issues_with, hnf, Bool.false_eq_true, if_false, hfe, Option.map_none']

/-- Witness for C7: a missing fetch result is irrelevant under `no_fetch`. -/
theorem c7_fetch_independence_witness :
    find_issues_with "w" default argsNF { envFatal with fetch := none } =
      find_issues_with "w" default argsNF { envFatal with fetch := some outEmpty } :=
  (c7_fetch_independence "w" default argsNF envFatal).1 rfl none (some outEmpty)

/-- C8: the classification outcome is a function of the status, remote and
branch-tracking outputs alone — two completed classifier runs that observe
identical values for these three produce identical classifications. -/
theorem c8_classification_deterministic (p₁ p₂ : String) (i₁ i₂ : Issues)
    (a₁ a₂ : Args) (env₁ env₂ : GitEnv) (r₁ r₂ : Issues)
    (hst : env₁.status = env₂.status) (hrm : env₁.remote = env₂.remote)
    (hbv : env₁.branch_vv = env₂.branch_vv)
    (h₁ : find_issues_with p₁ i₁ a₁ env₁ = some r₁)
    (h₂ : find_issues_with p₂ i₂ a₂ env₂ = some r₂) :
    issueAdded i₁ r₁ = issueAdded i₂ r₂ := by
  rcases find_issues_with_inv p₁ i₁ a₁ env₁ r₁ h₁ with
    ⟨st₁, rm₁, bv₁, o₁, hs₁, hr₁, hb₁, _, hc₁, hro₁⟩
  rcases find_issues_with_inv p₂ i₂ a₂ env₂ r₂ h₂ with
    ⟨st₂, rm₂, bv₂, o₂, hs₂, hr₂, hb₂, _, hc₂, hro₂⟩
  rw [hst, hs₂] at hs₁
  rw [hrm, hr₂] at hr₁
  rw [hbv, hb₂] at hb₁
  injection hs₁ with hs₁
  injection hr₁ with hr₁
  injection hb₁ with hb₁
  subst hs₁; subst hr₁; subst hb₁
  rw [hc₂] at hc₁
  injection hc₁ with hc₁
  subst hc₁
  rw [hro₁, hro₂, issueAdded_applyOutcome, issueAdded_applyOutcome]

/-- Witness for C8: two runs over the same three outputs but different
paths, accumulators and fetch settings classify identically. -/
theorem c8_classification_deterministic_witness :
    issueAdded default
        { dir_searched := 1, no_git_repo := [], no_remote := [],
          current_branch_untracked := ["a"], not_committed := [],
          not_pushed := [], have_diverged := [] } =
      issueAdded default
        { dir_searched := 1, no_git_repo := [], no_remote := [],
          current_branch_untracked := ["b"], not_committed := [],
          not_pushed := [], have_diverged := [] } :=
  c8_classification_deterministic "a" "b" default default argsWF argsNF
    envUntracked { envUntracked with fetch := none }
    _ _ rfl rfl rfl (by decide) (by decide)

/-- C1: the classifier evaluates the six issue checks top to bottom with
first match wins — NoGitRepo on the fatal stderr prefix; else NoRemote when
the remote listing does not contain "origin"; else CurrentBranchUntracked
when the tracking info does not contain "[origin/" followed by the parsed
current branch; else NotCommitted on any of the three working-tree
markers; else NotPushed on "Your branch is ahead of"; else HaveDiverged on
"have diverged"; a repository matching none is recorded in no sequence. -/
theorem c1_decision_tree (path : String) (issues : Issues) (args : Args)
    (env : GitEnv) (st rm bv : Output)
    (hf : args.no_fetch = true ∨ env.fetch.isSome)
    (hs : env.status = some st) (hr : env.remote = some rm)
    (hb : env.branch_vv = some bv) :
    ((bytes "fatal: not a git repository").isPrefixOf st.stderr = true →
      find_issues_with path issues args env =
        some { issues with
               dir_searched := issues.dir_searched + 1,
               no_git_repo := issues.no_git_repo ++ [path] }) ∧
    ((bytes "fatal: not a git repository").isPrefixOf st.stderr = false →
     is_sub rm.stdout (bytes "origin") = false →
      find_issues_with path issues args env =
        some { issues with
               dir_searched := issues.dir_searched + 1,
               no_remote := issues.no_remote ++ [path] }) ∧
    (∀ txt br,
     (bytes "fatal: not a git repository").isPrefixOf st.stderr = false →
     is_sub rm.stdout (bytes "origin") = true →
     utf8Decode bv.stdout = some txt →
     ((rustLines txt).filterMap starSecondToken).head? = some br →
     is_sub bv.stdout (utf8Encode ("[origin/".data ++ br)) = false →
      find_issues_with path issues args env =
        some { issues with
               dir_searched := issues.dir_searched + 1,
               current_branch_untracked := issues.current_branch_untracked ++ [path] }) ∧
    (∀ txt br,
     (bytes "fatal: not a git repository").isPrefixOf st.stderr = false →
     is_sub rm.stdout (bytes "origin") = true →
     utf8Decode bv.stdout = some txt →
     ((rustLines txt).filterMap starSecondToken).head? = some br →
     is_sub bv.stdout (utf8Encode ("[origin/".data ++ br)) = true →
     (is_sub st.stdout (bytes "Changes to be committed:")
       || is_sub st.stdout (bytes "Changes not staged for commit:")
       || is_sub st.stdout (bytes "Untracked files:")) = true →
      find_issues_with path issues args env =
        some { issues with
               dir_searched := issues.dir_searched + 1,
               not_committed := issues.not_committed ++ [path] }) ∧
    (∀ txt br,
     (bytes "fatal: not a git repository").isPrefixOf st.stderr = false →
     is_sub rm.stdout (bytes "origin") = true →
     utf8Decode bv.stdout = some txt →
     ((rustLines txt).filterMap starSecondToken).head? = some br →
     is_sub bv.stdout (utf8Encode ("[origin/".data ++ br)) = true →
     (is_sub st.stdout (bytes "Changes to be committed:")
       || is_sub st.stdout (bytes "Changes not staged for commit:")
       || is_sub st.stdout (bytes "Untracked files:")) = false →
     is_sub st.stdout (bytes "Your branch is ahead of") = true →
      find_issues_with path issues args env =
        some { issues with
               dir_searched := issues.dir_searched + 1,
               not_pushed := issues.not_pushed ++ [path] }) ∧
    (∀ txt br,
     (bytes "fatal: not a git repository").isPrefixOf st.stderr = false →
     is_sub rm.stdout (bytes "origin") = true →
     utf8Decode bv.stdout = some txt →
     ((rustLines txt).filterMap starSecondToken).head? = some br →
     is_sub bv.stdout (utf8Encode ("[origin/".data ++ br)) = true →
     (is_sub st.stdout (bytes "Changes to be committed:")
       || is_sub st.stdout (bytes "Changes not staged for commit:")
       || is_sub st.stdout (bytes "Untracked files:")) = false →
     is_sub st.stdout (bytes "Your branch is ahead of") = false →
     is_sub st.stdout (bytes "have diverged") = true →
      find_issues_with path issues args env =
        some { issues with
               dir_searched := issues.dir_searched + 1,
               have_diverged := issues.have_diverged ++ [path] }) ∧
    (∀ txt br,
     (bytes "fatal: not a git repository").isPrefixOf st.stderr = false →
     is_sub rm.stdout (bytes "origin") = true →
     utf8Decode bv.stdout = some txt →
     ((rustLines txt).filterMap starSecondToken).head? = some br →
     is_sub bv.stdout (utf8Encode ("[origin/".data ++ br)) = true →
     (is_sub st.stdout (bytes "Changes to be committed:")
       || is_sub st.stdout (bytes "Changes not staged for commit:")
       || is_sub st.stdout (bytes "Untracked files:")) = false →
     is_sub st.stdout (bytes "Your branch is ahead of") = false →
     is_sub st.stdout (bytes "have diverged") = false →
      find_issues_with path issues args env =
        some { issues with dir_searched := issues.dir_searched + 1 }) := by
  rw [find_issues_with_eq path issues args env st rm bv hf hs hr hb]
  refine ⟨?_, ?_, ?_, ?_, ?_, ?_, ?_⟩
  · intro h1
    simp [classifyOutcome, h1, applyOutcome]
  · intro h1 h2
    simp [classifyOutcome, h1, h2, applyOutcome]
  · intro txt br h1 h2 hdec hstar htr
    rw [show ("[origin/".data ++ br) =
      '[' :: 'o' :: 'r' :: 'i' :: 'g' :: 'i' :: 'n' :: '/' :: br from rfl] at htr
    simp [classifyOutcome, h1, h2, hdec, hstar, htr, applyOutcome]
  · intro txt br h1 h2 hdec hstar htr hcm
    rw [show ("[origin/".data ++ br) =
      '[' :: 'o' :: 'r' :: 'i' :: 'g' :: 'i' :: 'n' :: '/' :: br from rfl] at htr
    simp [classifyOutcome, h1, h2, hdec, hstar, htr, hcm, applyOutcome]
  · intro txt br h1 h2 hdec hstar htr hcm hah
    rw [show ("[origin/".data ++ br) =
      '[' :: 'o' :: 'r' :: 'i' :: 'g' :: 'i' :: 'n' :: '/' :: br from rfl] at htr
    simp [classifyOutcome, h1, h2, hdec, hstar, htr, hcm, hah, applyOutcome]
  · intro txt br h1 h2 hdec hstar htr hcm hah hdv
    rw [show ("[origin/".data ++ br) =
      '[' :: 'o' :: 'r' :: 'i' :: 'g' :: 'i' :: 'n' :: '/' :: br from rfl] at htr
    simp [classifyOutcome, h1, h2, hdec, hstar, htr, hcm, hah, hdv, applyOutcome]
  · intro txt br h1 h2 hdec hstar htr hcm hah hdv
    rw [show ("[origin/".data ++ br) =
      '[' :: 'o' :: 'r' :: 'i' :: 'g' :: 'i' :: 'n' :: '/' :: br from rfl] at htr
    simp [classifyOutcome, h1, h2, hdec, hstar, htr, hcm, hah, hdv, applyOutcome]

/-- Witness for C1: the fatal stderr prefix sends a concrete run to
`no_git_repo`. -/
theorem c1_decision_tree_witness :
    find_issues_with "w1" default argsNF envFatal =
      some { (default : Issues) with
             dir_searched := (default : Issues).dir_searched + 1,
             no_git_repo := (default : Issues).no_git_repo ++ ["w1"] } :=
  (c1_decision_tree "w1" default argsNF envFatal statusFatal outEmpty outEmpty
    (Or.inl rfl) rfl rfl rfl).1 (by decide)

/-- C6 (amended): once the fatal and no-remote checks have not fired, the
current branch is determined by splitting each line of the tracking-info
text at single spaces, taking the second token of the first line whose
first token is `*` and which has a second token; if no line yields a
branch this way, or the tracking-info output is not valid UTF-8, the whole
run aborts instead of recording a classification. -/
theorem c6_branch_parse (path : String) (issues : Issues) (args : Args)
    (env : GitEnv) (st rm bv : Output)
    (hf : args.no_fetch = true ∨ env.fetch.isSome)
    (hs : env.status = some st) (hr : env.remote = some rm)
    (hb : env.branch_vv = some bv)
    (h1 : (bytes "fatal: not a git repository").isPrefixOf st.stderr = false)
    (h2 : is_sub rm.stdout (bytes "origin") = true) :
    (utf8Decode bv.stdout = none → find_issues_with path issues args env = none) ∧
    (∀ txt, utf8Decode bv.stdout = some txt →
      (rustLines txt).filterMap starSecondToken = [] →
      find_issues_with path issues args env = none) ∧
    (∀ txt br rest, utf8Decode bv.stdout = some txt →
      (rustLines txt).filterMap starSecondToken = br :: rest →
      is_sub bv.stdout (utf8Encode ("[origin/".data ++ br)) = false →
      find_issues_with path issues args env =
        some { issues with
               dir_searched := issues.dir_searched + 1,
               current_branch_untracked := issues.current_branch_untracked ++ [path] }) := by
  rw [find_issues_with_eq path issues args env st rm bv hf hs hr hb]
  refine ⟨?_, ?_, ?_⟩
  · intro hdec
    simp [classifyOutcome, h1, h2, hdec]
  · intro txt hdec hstar
    simp [classifyOutcome, h1, h2, hdec, hstar]
  · intro txt br rest hdec hstar htr
    rw [show ("[origin/".data ++ br) =
      '[' :: 'o' :: 'r' :: 'i' :: 'g' :: 'i' :: 'n' :: '/' :: br from rfl] at htr
    simp [classifyOutcome, h1, h2, hdec, hstar, htr, applyOutcome]

/-- Witness for C6 (amended) on a concrete untracked-branch repository. -/
theorem c6_branch_parse_witness :
    find_issues_with "w6" default argsNF envUntracked =
      some { (default : Issues) with
             dir_searched := (default : Issues).dir_searched + 1,
             current_branch_untracked :=
               (default : Issues).current_branch_untracked ++ ["w6"] } :=
  (c6_branch_parse "w6" default argsNF envUntracked statusClean outOrigin
    branchFeature (Or.inl rfl) rfl rfl rfl (by decide) (by decide)).2.2
    (String.data "* main 1234abc [origin/feature] msg\n") (String.data "main") []
    (by decide) (by decide) (by decide)

/-- Counterexample to C6 as stated: in the output `"*\tfoo\n"` a line whose
first whitespace-separated token is `*` exists (its second whitespace
token is `foo`), and in `"*\n"` a line whose first space-separated token
is `*` exists — yet in both cases the run aborts with `none` instead of
classifying with that branch, because the code splits at single spaces
only and demands a second `split(" ")` token. -/
theorem c6_counterexample :
    rustLines (String.data "*\tfoo\n") = [String.data "*\tfoo"] ∧
    wsTokens (String.data "*\tfoo") = [['*'], String.data "foo"] ∧
    find_issues_with "r" default argsNF envTab = none ∧
    rustLines (String.data "*\n") = [['*']] ∧
    (rustSplitSpace ['*']).head? = some ['*'] ∧
    find_issues_with "r" default argsNF envLoneStar = none := by
  refine ⟨?_, ?_, ?_, ?_, ?_, ?_⟩ <;> decide

/-- C3: the traversal is bounded by the depth limit — a scan with
`depth_limit = 0` performs no work and returns the accumulator unchanged
with no diagnostics (so an empty report when started empty) regardless of
filesystem contents; a non-repository root is scanned by recursing into
each immediate subdirectory with `depth_limit - 1`; and the scan result
depends only on the part of the tree at depth below the limit, so
directories more than `depth_limit` levels below the root are never
visited. -/
theorem c3_depth_limit (args : Args) (env : String → GitEnv) (path : String)
    (issues : Issues) :
    (∀ (g : Bool) (es : List Entry), scan args env path g es 0 issues = some (issues, [])) ∧
    (∀ (es : List Entry) (l : Nat),
      scan args env path false es (l + 1) issues = scanList args env es l issues) ∧
    (∀ (l : Nat) (g : Bool) (es : List Entry) (g' : Bool) (es' : List Entry),
      truncRoot l g es = truncRoot l g' es' →
      scan args env path g es l issues = scan args env path g' es' l issues) :=
  ⟨fun g es => scan_zero args env path g es issues,
   fun es l => scan_succ_nogit args env path es l issues,
   fun l g es g' es' h => scan_trunc l args env path issues g es g' es' h⟩

/-- Witness for C3: the contents of a subdirectory at the depth boundary
are invisible to a depth-1 scan. -/
theorem c3_depth_limit_witness :
    scan argsNF envTrivial "." false
        [Entry.subdir "a" true [Entry.subdir "b" true []]] 1 default =
      scan argsNF envTrivial "." false [Entry.subdir "a" false []] 1 default :=
  (c3_depth_limit argsNF envTrivial "." default).2.2 1 false
    [Entry.subdir "a" true [Entry.subdir "b" true []]] false
    [Entry.subdir "a" false []]
    (by simp [truncRoot, truncEntry])

/-- C4: after every completed scan, `directories_searched` has grown by
exactly the number of `.git`-marked directories encountered within the
depth limit — one per Classifier invocation, independent of the
classification outcome — and every completed Classifier invocation
increments the counter by exactly one. -/
theorem c4_dir_searched_count (args : Args) (env : String → GitEnv) :
    (∀ (path : String) (g : Bool) (es : List Entry) (l : Nat)
      (issues r : Issues) (log : List String),
      scan args env path g es l issues = some (r, log) →
      r.dir_searched = issues.dir_searched + (gitRepos l g es : Int)) ∧
    (∀ (p : String) (i : Issues) (e : GitEnv) (r : Issues),
      find_issues_with p i args e = some r →
      r.dir_searched = i.dir_searched + 1) :=
  ⟨fun path g es l issues r log h => scan_dir_searched l args env path g es issues r log h,
   fun p i e r h => find_issues_with_dir_searched p i args e r h⟩

/-- Witness for C4 on a one-repository scan. -/
theorem c4_dir_searched_count_witness :
    Issues.dir_searched
        { dir_searched := 1, no_git_repo := [], no_remote := ["."],
          current_branch_untracked := [], not_committed := [], not_pushed := [],
          have_diverged := [] } =
      (default : Issues).dir_searched + (gitRepos 1 true [] : Int) :=
  (c4_dir_searched_count argsNF envTrivial).1 "." true [] 1 default
    { dir_searched := 1, no_git_repo := [], no_remote := ["."],
      current_branch_untracked := [], not_committed := [], not_pushed := [],
      have_diverged := [] } []
    (by rw [scan_succ_git]; decide)

/-- C5: an unreadable directory entry anywhere in a listing is skipped
with a diagnostic: the scan of the listing equals the scan of the
remaining siblings with the diagnostic recorded, so the accumulated
issues are those of the listing without the entry and the run does not
abort because of it. -/
theorem c5_unreadable_skipped (args : Args) (env : String → GitEnv)
    (es₁ es₂ : List Entry) (l : Nat) (issues : Issues) :
    (scanList args env (es₁ ++ Entry.unreadable :: es₂) l issues =
      (scanList args env es₁ l issues).bind
        (fun p => (scanList args env es₂ l p.1).map
          (fun q => (q.1, p.2 ++ unreadableDiag :: q.2)))) ∧
    (∀ (r : Issues) (log : List String),
      scanList args env (es₁ ++ Entry.unreadable :: es₂) l issues = some (r, log) →
      unreadableDiag ∈ log ∧
      ∃ log', scanList args env (es₁ ++ es₂) l issues = some (r, log')) := by
  have key : scanList args env (es₁ ++ Entry.unreadable :: es₂) l issues =
      (scanList args env es₁ l issues).bind
        (fun p => (scanList args env es₂ l p.1).map
          (fun q => (q.1, p.2 ++ unreadableDiag :: q.2))) := by
    rw [scanList_append]
    apply congrArg
    funext p
    rw [scanList_unreadable]
    cases scanList args env es₂ l p.1 <;> simp
  refine ⟨key, ?_⟩
  intro r log h
  rw [key] at h
  cases h₁ : scanList args env es₁ l issues with
  | none => rw [h₁] at h; simp at h
  | some p =>
    rw [h₁] at h
    simp only [Option.some_bind] at h
    cases h₂ : scanList args env es₂ l p.1 with
    | none => rw [h₂] at h; simp at h
    | some q =>
      rw [h₂] at h
      simp only [Option.map_some', Option.some.injEq, Prod.mk.injEq] at h
      obtain ⟨rfl, rfl⟩ := h
      constructor
      · simp
      · rw [scanList_append, h₁]
        simp only [Option.some_bind]
        rw [h₂]
        exact ⟨p.2 ++ q.2, by simp⟩

/-- Witness for C5 on a one-entry listing. -/
theorem c5_unreadable_skipped_witness :
    unreadableDiag ∈ [unreadableDiag] ∧
    ∃ log', scanList argsNF envTrivial ([] ++ []) 0 default = some (default, log') :=
  (c5_unreadable_skipped argsNF envTrivial [] [] 0 default).2 default [unreadableDiag]
    (by rw [List.nil_append, scanList_unreadable, scanList_nil]; rfl)

/-- C10: a readable subdirectory entry whose path is not valid UTF-8 is
neither skipped nor aborted on: the entry survives the directory filter,
the classification loop hands the classifier the empty string `""` as the
repository path, the classifier increments `dir_searched`, and on a match
it records `""` in the matched issue sequence. -/
theorem c10_invalid_utf8_path (args : Args) (env : String → GitEnv)
    (e : DirEntry) (hm : e.metadata = some true) (hp : e.path = none) :
    (∀ (pre post : List (Option DirEntry)),
      keptDirs (pre ++ some e :: post) = keptDirs pre ++ e :: keptDirs post) ∧
    (∀ (entries : List (Option DirEntry)),
      find_issues args false (some entries) env =
        classify_all args env default (keptDirs entries)) ∧
    (∀ (issues : Issues) (es : List DirEntry),
      classify_all args env issues (e :: es) =
        (find_issues_with "" issues args (env "")).bind
          (fun i => classify_all args env i es)) ∧
    (∀ (issues r : Issues),
      find_issues_with "" issues args (env "") = some r →
      r.dir_searched = issues.dir_searched + 1) ∧
    (∀ (issues r : Issues) (b : Issue),
      find_issues_with "" issues args (env "") = some r →
      issueAdded issues r = some b →
      bucketGet r b = bucketGet issues b ++ [""]) := by
  refine ⟨?_, ?_, ?_, ?_, ?_⟩
  · intro pre post
    simp [keptDirs, List.filterMap_append, List.filter_append, hm]
  · intro entries
    rfl
  · intro issues es
    simp only [classify_all, List.foldlM_cons, hp, Option.getD_none]
    rfl
  · intro issues r h
    exact find_issues_with_dir_searched "" issues args (env "") r h
  · intro issues r b h hadd
    rcases find_issues_with_inv "" issues args (env "") r h with
      ⟨st, rm, bv, o, _, _, _, _, _, hro⟩
    subst hro
    rw [issueAdded_applyOutcome] at hadd
    subst hadd
    exact bucketGet_applyOutcome "" issues (issues.dir_searched + 1) b

/-- Witness for C10: the classification step on a concrete non-UTF-8 entry. -/
theorem c10_invalid_utf8_path_witness :
    classify_all argsNF envTrivial default [entryNoUtf8] =
      (find_issues_with "" default argsNF (envTrivial "")).bind
        (fun i => classify_all argsNF envTrivial i []) :=
  (c10_invalid_utf8_path argsNF envTrivial entryNoUtf8 rfl rfl).2.2.1 default []
